import Mathlib

/-!
Verification of the CI/try-builder mirror resolution logic of
`content/test/gpu/unexpected_passes/builders.py`.

The Python module is shallowly embedded: parsed JSON values become the
inductive `JsonValue`, Python dictionary/list/string operations that may
raise become `Except String`-valued functions, Python sets become
`Finset String`, and the two external effects (`json.loads` and the
Buildbucket subprocess query) become explicit function parameters, so
that every code path of the module is a total computable Lean function.
-/

set_option maxRecDepth 8000
set_option maxHeartbeats 1000000
set_option linter.unnecessarySeqFocus false

/-- A parsed Python JSON value, the result of `json.load` / `json.loads`. -/
inductive JsonValue where
  | null : JsonValue
  | boolean : Bool → JsonValue
  | number : Int → JsonValue
  | str : String → JsonValue
  | arr : List JsonValue → JsonValue
  | obj : List (String × JsonValue) → JsonValue

/-- Python substring test: `needle in hay` for two strings. -/
def pySub (needle hay : String) : Bool :=
  hay.data.tails.any (fun t => needle.data.isPrefixOf t)

/-- Python `s.endswith(suffix)`: suffix test on the character lists. -/
def pyEndsWith (s suffix : String) : Bool :=
  suffix.data.isSuffixOf s.data

/-- Python `d.get(k, default)`: raises `AttributeError` unless the receiver
is a dict. -/
def jget (j : JsonValue) (k : String) (d : JsonValue) : Except String JsonValue :=
  match j with
  | .obj kvs => .ok ((List.lookup k kvs).getD d)
  | _ => .error "AttributeError"

/-- Python `s in j` for a string `s`: key membership for dicts, element
equality for lists, substring test for strings; `TypeError` otherwise. -/
def pyInString (s : String) (j : JsonValue) : Except String Bool :=
  match j with
  | .obj kvs => .ok (kvs.any (fun kv => kv.1 == s))
  | .arr xs => .ok (xs.any (fun v => match v with | .str t => t == s | _ => false))
  | .str t => .ok (pySub s t)
  | _ => .error "TypeError"

/-- Python `for x in j`: lists yield elements, strings yield one-character
strings, dicts yield their keys; `TypeError` otherwise. -/
def pyIter (j : JsonValue) : Except String (List JsonValue) :=
  match j with
  | .arr xs => .ok xs
  | .str s => .ok (s.data.map (fun c => JsonValue.str (String.mk [c])))
  | .obj kvs => .ok (kvs.map (fun kv => JsonValue.str kv.1))
  | _ => .error "TypeError"

/-- Python `j.iteritems()`: key/value pairs of a dict, `AttributeError`
otherwise. -/
def pyItems (j : JsonValue) : Except String (List (String × JsonValue)) :=
  match j with
  | .obj kvs => .ok kvs
  | _ => .error "AttributeError"

/-- Left fold short-circuiting on the first error, i.e. a Python `for`
loop whose body may raise. -/
def foldE (f : α → β → Except ε α) : α → List β → Except ε α
  | acc, [] => .ok acc
  | acc, x :: xs =>
    match f acc x with
    | .ok acc2 => foldE f acc2 xs
    | .error e => .error e

/-- Effectful map short-circuiting on the first error, i.e. the process
pool `map` whose workers may raise. -/
def mapE (f : α → Except ε β) : List α → Except ε (List β)
  | [] => .ok []
  | x :: xs =>
    match f x with
    | .error e => .error e
    | .ok y =>
      match mapE f xs with
      | .error e => .error e
      | .ok ys => .ok (y :: ys)

/-- Python `s.split(c)` for a one-character separator, on the character
list of the string. -/
def splitOnChar (c : Char) : List Char → List (List Char)
  | [] => [[]]
  | x :: xs =>
    if x = c then [] :: splitOnChar c xs
    else
      match splitOnChar c xs with
      | [] => [[x]]
      | y :: ys => (x :: y) :: ys

/-- Python `s.split(c)` returning strings. -/
def pySplit (s : String) (c : Char) : List String :=
  (splitOnChar c s.data).map (fun l => String.mk l)

/-- `AUTOGENERATED_JSON_KEY` from builders.py. -/
def AUTOGENERATED_JSON_KEY : String := "AAAAA1 AUTOGENERATED FILE DO NOT EDIT"

/-- `GPU_TELEMETRY_ISOLATES` from builders.py. -/
def GPU_TELEMETRY_ISOLATES : List String :=
  ["fuchsia_telemetry_gpu_integration_test", "telemetry_gpu_integration_test"]

/-- `NON_CHROMIUM_BUILDERS` from builders.py. -/
def NON_CHROMIUM_BUILDERS : List String :=
  ["Win V8 FYI Release (NVIDIA)",
   "Mac V8 FYI Release (Intel)",
   "Linux V8 FYI Release - pointer compression (NVIDIA)",
   "Linux V8 FYI Release (NVIDIA)",
   "Android V8 FYI Release (Nexus 5X)"]

/-- `FAKE_TRY_BUILDERS` from builders.py: try builder name to the CI
builders it mirrors. -/
def FAKE_TRY_BUILDERS : List (String × List String) :=
  [("android_angle_rel_ng", ["ANGLE GPU Android Release (Nexus 5X)"]),
   ("android_optional_gpu_tests_rel", ["Optional Android Release (Nexus 5X)"]),
   ("linux-angle-rel",
    ["ANGLE GPU Linux Release (Intel HD 630)", "ANGLE GPU Linux Release (NVIDIA)"]),
   ("linux_optional_gpu_tests_rel",
    ["Optional Linux Release (Intel HD 630)", "Optional Linux Release (NVIDIA)"]),
   ("mac-angle-rel",
    ["ANGLE GPU Mac Release (Intel)", "ANGLE GPU Mac Retina Release (AMD)",
     "ANGLE GPU Mac Retina Release (NVIDIA)"]),
   ("mac_optional_gpu_tests_rel",
    ["Optional Mac Release (Intel)", "Optional Mac Retina Release (AMD)",
     "Optional Mac Retina Release (NVIDIA)"]),
   ("win-angle-rel-32", ["Win7 ANGLE Tryserver (AMD)"]),
   ("win-angle-rel-64",
    ["ANGLE GPU Win10 x64 Release (Intel HD 630)",
     "ANGLE GPU Win10 x64 Release (NVIDIA)"]),
   ("win_optional_gpu_tests_rel",
    ["Optional Win10 x64 Release (Intel HD 630)",
     "Optional Win10 x64 Release (NVIDIA)"])]

/-- `FAKE_CI_BUILDERS` from builders.py: the inverse mapping, CI builder
name to mirroring try builder, built by iterating `FAKE_TRY_BUILDERS`. -/
def FAKE_CI_BUILDERS : List (String × String) :=
  FAKE_TRY_BUILDERS.foldl (fun acc p => acc ++ p.2.map (fun ci => (ci, p.1))) []

/-- Lookup in an association list built by repeated dict writes: the last
write wins, as in a Python dict. -/
def dictFind (kvs : List (String × String)) (k : String) : Option String :=
  List.lookup k kvs.reverse

/-- `_SuiteInTests` from builders.py, on an already iterated list of test
records. -/
def SuiteInTests (suite : String) : List JsonValue → Except String Bool
  | [] => .ok false
  | t :: rest =>
    match jget t "isolate_name" .null with
    | .error e => .error e
    | .ok iso =>
      if (match iso with
          | .str s => GPU_TELEMETRY_ISOLATES.contains s
          | _ => false) then
        match jget t "args" (.arr []) with
        | .error e => .error e
        | .ok args =>
          match pyInString suite args with
          | .error e => .error e
          | .ok b => if b then .ok true else SuiteInTests suite rest
      else SuiteInTests suite rest

/-- One iteration of the builder loop of `GetCiBuilders`: one top-level
key/value pair of a buildbot JSON file. -/
def processEntry (suite : String) (acc : Finset String) (kv : String × JsonValue) :
    Except String (Finset String) :=
  if pySub "Builder" kv.1 || pySub "AAAA" kv.1 then .ok acc
  else
    match jget kv.2 "isolated_scripts" (.arr []) with
    | .error e => .error e
    | .ok scripts =>
      match pyIter scripts with
      | .error e => .error e
      | .ok ts =>
        match SuiteInTests suite ts with
        | .error e => .error e
        | .ok b => .ok (if b then insert kv.1 acc else acc)

/-- One iteration of the file loop of `GetCiBuilders`: a directory entry
given as (file name, raw contents), parsed with `loads`. -/
def processFile (loads : String → Except String JsonValue) (suite : String)
    (acc : Finset String) (f : String × String) : Except String (Finset String) :=
  if ! pyEndsWith f.1 ".json" then .ok acc
  else
    match loads f.2 with
    | .error e => .error e
    | .ok j =>
      match pyInString AUTOGENERATED_JSON_KEY j with
      | .error e => .error e
      | .ok hasKey =>
        if ! hasKey then .ok acc
        else
          match pyItems j with
          | .error e => .error e
          | .ok entries => foldE (processEntry suite) acc entries

/-- `GetCiBuilders` from builders.py. The directory listing is a list of
(file name, raw contents) pairs and `loads` stands for `json.load`. -/
def GetCiBuilders (loads : String → Except String JsonValue) (suite : String)
    (files : List (String × String)) : Except String (Finset String) :=
  foldE (processFile loads suite) ∅ files

/-- The body of the mirror loop of `_GetMirroredBuildersForCiBuilder`:
split one `mirrored_builders` entry on the colon, assert the split has
exactly two parts, and keep the builder-name part. Non-string entries
raise `AttributeError` ( `.split` is not defined on them), a split of any
other length raises `AssertionError`. -/
def extractMirror (m : JsonValue) : Except String String :=
  match m with
  | .str s =>
    match pySplit s ':' with
    | [_, b] => .ok b
    | _ => .error "AssertionError"
  | _ => .error "AttributeError"

/-- The `output.properties.mirrored_builders` extraction of
`_GetMirroredBuildersForCiBuilder`, on the parsed Buildbucket record. -/
def extractMirrorNames (j : JsonValue) : Except String (List String) :=
  match jget j "output" (.obj []) with
  | .error e => .error e
  | .ok o =>
    match jget o "properties" (.obj []) with
    | .error e => .error e
    | .ok p =>
      match jget p "mirrored_builders" (.arr []) with
      | .error e => .error e
      | .ok mb =>
        match pyIter mb with
        | .error e => .error e
        | .ok ms => mapE extractMirror ms

/-- `_GetMirroredBuildersForCiBuilder` from builders.py. `bbQuery` stands
for `_GetBuildbucketOutputForCiBuilder` (its raw string output, or the
exception it raises) and `loads` for `json.loads`. -/
def GetMirroredBuildersForCiBuilder (loads : String → Except String JsonValue)
    (bbQuery : String → Except String String) (ci : String) :
    Except String (Finset String × Bool) :=
  if NON_CHROMIUM_BUILDERS.contains ci then .ok (∅, true)
  else
    match dictFind FAKE_CI_BUILDERS ci with
    | some t => .ok ({t}, true)
    | none =>
      match bbQuery ci with
      | .error e => .error e
      | .ok out =>
        if out = "" then .ok ({ci}, false)
        else
          match loads out with
          | .error e => .error e
          | .ok j =>
            match extractMirrorNames j with
            | .error e => .error e
            | .ok names => .ok (names.toFinset, true)

/-- The two ways `GetTryBuilders` can raise: a propagated worker
exception from the process pool, or the aggregate `RuntimeError` whose
message lists the builders without Buildbucket output. -/
inductive TryResolutionFailure where
  | worker : String → TryResolutionFailure
  | noBuildbucketOutput : Finset String → TryResolutionFailure

/-- `GetTryBuilders` from builders.py. -/
def GetTryBuilders (loads : String → Except String JsonValue)
    (bbQuery : String → Except String String) (cis : List String) :
    Except TryResolutionFailure (Finset String) :=
  match mapE (GetMirroredBuildersForCiBuilder loads bbQuery) cis with
  | .error e => .error (.worker e)
  | .ok results =>
    let pair := results.foldl
      (fun acc r => if r.2 then (acc.1 ∪ r.1, acc.2) else (acc.1, acc.2 ∪ r.1))
      (∅, ∅)
    if pair.2 = ∅ then .ok pair.1 else .error (.noBuildbucketOutput pair.2)

/-- The try builders one CI builder contributes to the merged result: its
resolved set when it is marked resolved, nothing otherwise. -/
def tryContribution (loads : String → Except String JsonValue)
    (bbQuery : String → Except String String) (b : String) : Finset String :=
  match GetMirroredBuildersForCiBuilder loads bbQuery b with
  | .ok (s, true) => s
  | _ => ∅

/-- Whether one CI builder ends up unresolved (its per-builder resolution
returns `found_mirror = False`). -/
def unresolvedFilter (loads : String → Except String JsonValue)
    (bbQuery : String → Except String String) (b : String) : Bool :=
  match GetMirroredBuildersForCiBuilder loads bbQuery b with
  | .ok (_, false) => true
  | _ => false

/-- The set of input CI builder names that end up unresolved. -/
def unresolvedNames (loads : String → Except String JsonValue)
    (bbQuery : String → Except String String) (cis : List String) : Finset String :=
  (cis.filter (unresolvedFilter loads bbQuery)).toFinset

/-- The merged try-builder set: the union of every resolved input
builder's contribution. -/
def mergedTryNames (loads : String → Except String JsonValue)
    (bbQuery : String → Except String String) (cis : List String) : Finset String :=
  cis.toFinset.biUnion (tryContribution loads bbQuery)

/-- One top-level entry of a buildbot file contributes builder `b` for
`suite`: the entry is named `b`, survives the Builder/AAAA name filter,
and its `isolated_scripts` carry the suite under a telemetry isolate. -/
def EntryContributes (suite b : String) (kv : String × JsonValue) : Prop :=
  kv.1 = b ∧ pySub "Builder" b = false ∧ pySub "AAAA" b = false ∧
  ∃ scripts ts, jget kv.2 "isolated_scripts" (.arr []) = .ok scripts ∧
    pyIter scripts = .ok ts ∧ SuiteInTests suite ts = .ok true

/-- One directory entry contributes builder `b` for `suite`: it is a
.json file, parses, carries the autogenerated sentinel key, and one of
its top-level entries contributes `b`. -/
def FileContributes (loads : String → Except String JsonValue) (suite b : String)
    (f : String × String) : Prop :=
  pyEndsWith f.1 ".json" = true ∧
  ∃ j, loads f.2 = .ok j ∧ pyInString AUTOGENERATED_JSON_KEY j = .ok true ∧
    ∃ entries, pyItems j = .ok entries ∧ ∃ kv ∈ entries, EntryContributes suite b kv

/-- The spec's wording of a contributing record, used to compare spec and
code: like `FileContributes` but without the code's Builder/AAAA name
filter — the spec lists only the isolate and argument conditions. -/
def SpecEntryContributes (suite b : String) (kv : String × JsonValue) : Prop :=
  kv.1 = b ∧
  ∃ scripts ts, jget kv.2 "isolated_scripts" (.arr []) = .ok scripts ∧
    pyIter scripts = .ok ts ∧ SuiteInTests suite ts = .ok true

/-- The spec's wording of a contributing directory entry, used to compare
spec and code (no Builder/AAAA name filter). -/
def SpecFileContributes (loads : String → Except String JsonValue) (suite b : String)
    (f : String × String) : Prop :=
  pyEndsWith f.1 ".json" = true ∧
  ∃ j, loads f.2 = .ok j ∧ pyInString AUTOGENERATED_JSON_KEY j = .ok true ∧
    ∃ entries, pyItems j = .ok entries ∧ ∃ kv ∈ entries, SpecEntryContributes suite b kv

/-- A Buildbucket record whose `output.properties.mirrored_builders` is
the given list. -/
def mkBBRecord (ms : List JsonValue) : JsonValue :=
  .obj [("output", .obj [("properties", .obj [("mirrored_builders", .arr ms)])])]

/-- Whether a parsed Buildbucket record lacks mirror information along the
`output.properties.mirrored_builders` path (a missing key at any level,
or an empty list at the end). -/
def lacksMirrorInfo (j : JsonValue) : Bool :=
  match j with
  | .obj kvs =>
    match List.lookup "output" kvs with
    | none => true
    | some (.obj kvs2) =>
      match List.lookup "properties" kvs2 with
      | none => true
      | some (.obj kvs3) =>
        match List.lookup "mirrored_builders" kvs3 with
        | none => true
        | some (.arr []) => true
        | _ => false
      | _ => false
    | _ => false
  | _ => false

/-- A `json.loads` that always fails to parse. -/
def loadsFailing : String → Except String JsonValue := fun _ => .error "ValueError"

/-- A Buildbucket query that always raises. -/
def queryRaising : String → Except String String := fun _ => .error "CalledProcessError"

/-- A Buildbucket query that always returns empty output. -/
def queryEmptyOutput : String → Except String String := fun _ => .ok ""

/-- A Buildbucket query that returns non-empty unparseable output. -/
def queryGarbage : String → Except String String := fun _ => .ok "garbage"

/-- A Buildbucket query that returns the fixed non-empty output "bb". -/
def querySome : String → Except String String := fun _ => .ok "bb"

/-- A test record running `my_suite` under the telemetry GPU isolate. -/
def sampleMatchingRecord : JsonValue :=
  .obj [("isolate_name", .str "telemetry_gpu_integration_test"),
        ("args", .arr [.str "my_suite"])]

/-- The sentinel entry of an autogenerated buildbot file. -/
def sampleSentinelEntry : String × JsonValue := (AUTOGENERATED_JSON_KEY, .str "x")

/-- A matching CI builder entry. -/
def sampleLinuxEntry : String × JsonValue :=
  ("GPU Linux", .obj [("isolated_scripts", .arr [sampleMatchingRecord])])

/-- A matching builder entry whose name contains "Builder". -/
def sampleWinBuilderEntry : String × JsonValue :=
  ("GPU Win Builder", .obj [("isolated_scripts", .arr [sampleMatchingRecord])])

/-- A builder entry on a different isolate. -/
def sampleOtherEntry : String × JsonValue :=
  ("Other",
   .obj [("isolated_scripts",
          .arr [.obj [("isolate_name", .str "other_isolate"),
                      ("args", .arr [.str "my_suite"])]])])

/-- A sample autogenerated buildbot file: one matching CI builder, one
matching builder whose name contains "Builder", and one builder on a
different isolate. -/
def sampleSuiteFile : JsonValue :=
  .obj [sampleSentinelEntry, sampleLinuxEntry, sampleWinBuilderEntry, sampleOtherEntry]

/-- A `json.load` that parses the contents "good" to `sampleSuiteFile`
and fails on everything else. -/
def loadsSample : String → Except String JsonValue :=
  fun s => if s = "good" then .ok sampleSuiteFile else .error "ValueError"

/-- A one-file directory listing for `loadsSample`. -/
def sampleFiles : List (String × String) := [("a.json", "good")]

/-- A `json.loads` whose record mirrors one try builder in the
`group:name` format. -/
def loadsMirrors : String → Except String JsonValue :=
  fun _ => .ok (mkBBRecord [.str "tryserver.chromium.linux:my-try-builder"])

/-- A `json.loads` whose record has a colon-free `mirrored_builders`
entry. -/
def loadsNoColon : String → Except String JsonValue :=
  fun _ => .ok (mkBBRecord [.str "nocolon"])

/-- A `json.loads` whose record has no `output` key at all. -/
def loadsLacking : String → Except String JsonValue :=
  fun _ => .ok (.obj [("status", .str "SUCCESS")])

deriving instance DecidableEq for TryResolutionFailure
deriving instance DecidableEq for Except

/-- A value Python can run `suite in value` on without raising: a dict,
list or string. -/
def iterableB (v : JsonValue) : Bool :=
  match v with
  | .obj _ => true
  | .arr _ => true
  | .str _ => true
  | _ => false

/-- A well-formed test record: a dict whose `args` value (defaulting to
an empty list) supports the membership test. -/
def wfTest (t : JsonValue) : Bool :=
  match t with
  | .obj kvs => iterableB ((List.lookup "args" kvs).getD (.arr []))
  | _ => false

/-- A well-formed builder value: a dict whose `isolated_scripts` value
(defaulting to an empty list) is a list of well-formed test records. -/
def wfEntryVal (v : JsonValue) : Bool :=
  match v with
  | .obj kvs =>
    (match (List.lookup "isolated_scripts" kvs).getD (.arr []) with
     | .arr ts => ts.all wfTest
     | _ => false)
  | _ => false

/-- A well-formed parsed suite file: a dict each of whose entries is
either dropped by the Builder/AAAA name filter or has a well-formed
builder value. -/
def wfFileJson (j : JsonValue) : Bool :=
  match j with
  | .obj kvs =>
    kvs.all (fun kv => pySub "Builder" kv.1 || pySub "AAAA" kv.1 || wfEntryVal kv.2)
  | _ => false

/-! ### Helper lemmas -/

theorem splitOnChar_no_sep {c : Char} {l : List Char} (h : c ∉ l) :
    splitOnChar c l = [l] := by
  induction l with
  | nil => rfl
  | cons x xs ih =>
    have hx : ¬ x = c := fun hxc => h (hxc ▸ List.mem_cons_self x xs)
    have hxs : c ∉ xs := fun hc => h (List.mem_cons_of_mem x hc)
    simp [splitOnChar, hx, ih hxs]

theorem splitOnChar_sep {c : Char} {g n : List Char} (hg : c ∉ g) (hn : c ∉ n) :
    splitOnChar c (g ++ c :: n) = [g, n] := by
  induction g with
  | nil => simp [splitOnChar, splitOnChar_no_sep hn]
  | cons x xs ih =>
    have hx : ¬ x = c := fun hxc => hg (hxc ▸ List.mem_cons_self x xs)
    have hxs : c ∉ xs := fun hc => hg (List.mem_cons_of_mem x hc)
    simp [splitOnChar, hx, ih hxs]

theorem splitOnChar_length {c : Char} (l : List Char) :
    (splitOnChar c l).length = l.count c + 1 := by
  induction l with
  | nil => rfl
  | cons x xs ih =>
    by_cases hx : x = c
    · subst hx
      simp [splitOnChar, List.count_cons, ih]
    · rcases hs : splitOnChar c xs with _ | ⟨y, ys⟩
      · have := ih
        rw [hs] at this
        simp at this
      · have := ih
        rw [hs] at this
        simp only [List.length_cons] at this
        simp [splitOnChar, hx, hs, List.count_cons, this]

theorem pySplit_sep {g n : String} (hg : ':' ∉ g.data) (hn : ':' ∉ n.data) :
    pySplit (g ++ ":" ++ n) ':' = [g, n] := by
  have hdata : (g ++ ":" ++ n).data = g.data ++ ':' :: n.data := by
    simp [String.data_append]
  rw [pySplit, hdata, splitOnChar_sep hg hn]
  simp [List.map]

theorem extractMirror_sep {g n : String} (hg : ':' ∉ g.data) (hn : ':' ∉ n.data) :
    extractMirror (.str (g ++ ":" ++ n)) = .ok n := by
  simp [extractMirror, pySplit_sep hg hn]

theorem extractMirror_count_ne_one {m : String} (h : m.data.count ':' ≠ 1) :
    extractMirror (.str m) = .error "AssertionError" := by
  have hlen : (pySplit m ':').length = m.data.count ':' + 1 := by
    simp [pySplit, splitOnChar_length]
  rcases hs : pySplit m ':' with _ | ⟨a, _ | ⟨b, _ | ⟨d, rest⟩⟩⟩ <;>
    rw [hs] at hlen <;> simp only [List.length] at hlen <;>
    simp [extractMirror, hs] <;> omega

theorem mapE_ok_of_forall {f : α → Except ε β} {g : α → β} {l : List α}
    (h : ∀ x ∈ l, f x = .ok (g x)) : mapE f l = .ok (l.map g) := by
  induction l with
  | nil => rfl
  | cons x xs ih =>
    have hx := h x (List.mem_cons_self x xs)
    have hxs := ih (fun y hy => h y (List.mem_cons_of_mem x hy))
    simp [mapE, hx, hxs]

theorem mapE_error_of_mem {f : α → Except ε β} {l : List α} {x : α} {e : ε}
    (hx : x ∈ l) (hfx : f x = .error e) : ∃ e2, mapE f l = .error e2 := by
  induction l with
  | nil => cases hx
  | cons y ys ih =>
    rcases List.mem_cons.mp hx with rfl | hmem
    · exact ⟨e, by simp [mapE, hfx]⟩
    · rcases hfy : f y with ey | vy
      · exact ⟨ey, by simp [mapE, hfy]⟩
      · rcases ih hmem with ⟨e2, he2⟩
        exact ⟨e2, by simp [mapE, hfy, he2]⟩

theorem foldE_append {f : α → β → Except ε α} (a : α) (l l2 : List β) :
    foldE f a (l ++ l2) =
      (match foldE f a l with
       | .ok b => foldE f b l2
       | .error e => .error e) := by
  induction l generalizing a with
  | nil => simp [foldE]
  | cons x xs ih =>
    simp only [List.cons_append, foldE]
    rcases hfx : f a x with e | a2 <;> simp [ih]

theorem assoc_lookup_mem {l : List (String × String)} {k v : String}
    (h : List.lookup k l = some v) : (k, v) ∈ l := by
  induction l with
  | nil => cases h
  | cons p ps ih =>
    rw [List.lookup] at h
    rcases hbe : (k == p.1) with _ | _
    · rw [hbe] at h
      exact List.mem_cons_of_mem p (ih h)
    · rw [hbe] at h
      have hk : k = p.1 := by
        have := of_decide_eq_true (by simpa using hbe)
        exact this
      cases h
      rw [hk]
      exact List.mem_cons_self p ps

theorem fake_pairs_not_nonchromium :
    ∀ p ∈ FAKE_CI_BUILDERS, NON_CHROMIUM_BUILDERS.contains p.1 = false := by decide

theorem fake_not_nonchromium {ci t : String}
    (h : dictFind FAKE_CI_BUILDERS ci = some t) :
    NON_CHROMIUM_BUILDERS.contains ci = false := by
  have hmem : (ci, t) ∈ FAKE_CI_BUILDERS := by
    have := assoc_lookup_mem h
    exact List.mem_reverse.mp this
  exact fake_pairs_not_nonchromium (ci, t) hmem

theorem gmb_nonchromium {loads : String → Except String JsonValue}
    {bbQuery : String → Except String String} {ci : String}
    (h : NON_CHROMIUM_BUILDERS.contains ci = true) :
    GetMirroredBuildersForCiBuilder loads bbQuery ci = .ok (∅, true) := by
  have hmem : ci ∈ NON_CHROMIUM_BUILDERS := by simpa using h
  simp [GetMirroredBuildersForCiBuilder, hmem]

theorem gmb_fake {loads : String → Except String JsonValue}
    {bbQuery : String → Except String String} {ci t : String}
    (h : dictFind FAKE_CI_BUILDERS ci = some t) :
    GetMirroredBuildersForCiBuilder loads bbQuery ci = .ok ({t}, true) := by
  have hmem : ci ∉ NON_CHROMIUM_BUILDERS := by
    simpa using fake_not_nonchromium h
  simp [GetMirroredBuildersForCiBuilder, hmem, h]

theorem gmb_query_error {loads : String → Except String JsonValue}
    {bbQuery : String → Except String String} {ci e : String}
    (h1 : NON_CHROMIUM_BUILDERS.contains ci = false)
    (h2 : dictFind FAKE_CI_BUILDERS ci = none)
    (h3 : bbQuery ci = .error e) :
    GetMirroredBuildersForCiBuilder loads bbQuery ci = .error e := by
  have hmem : ci ∉ NON_CHROMIUM_BUILDERS := by simpa using h1
  simp [GetMirroredBuildersForCiBuilder, hmem, h2, h3]

theorem gmb_empty_output {loads : String → Except String JsonValue}
    {bbQuery : String → Except String String} {ci : String}
    (h1 : NON_CHROMIUM_BUILDERS.contains ci = false)
    (h2 : dictFind FAKE_CI_BUILDERS ci = none)
    (h3 : bbQuery ci = .ok "") :
    GetMirroredBuildersForCiBuilder loads bbQuery ci = .ok ({ci}, false) := by
  have hmem : ci ∉ NON_CHROMIUM_BUILDERS := by simpa using h1
  simp [GetMirroredBuildersForCiBuilder, hmem, h2, h3]

theorem gmb_loads_error {loads : String → Except String JsonValue}
    {bbQuery : String → Except String String} {ci out e : String}
    (h1 : NON_CHROMIUM_BUILDERS.contains ci = false)
    (h2 : dictFind FAKE_CI_BUILDERS ci = none)
    (h3 : bbQuery ci = .ok out) (h4 : out ≠ "") (h5 : loads out = .error e) :
    GetMirroredBuildersForCiBuilder loads bbQuery ci = .error e := by
  have hmem : ci ∉ NON_CHROMIUM_BUILDERS := by simpa using h1
  simp [GetMirroredBuildersForCiBuilder, hmem, h2, h3, h4, h5]

theorem gmb_live {loads : String → Except String JsonValue}
    {bbQuery : String → Except String String} {ci out : String} {j : JsonValue}
    (h1 : NON_CHROMIUM_BUILDERS.contains ci = false)
    (h2 : dictFind FAKE_CI_BUILDERS ci = none)
    (h3 : bbQuery ci = .ok out) (h4 : out ≠ "") (h5 : loads out = .ok j) :
    GetMirroredBuildersForCiBuilder loads bbQuery ci =
      (match extractMirrorNames j with
       | .error e => .error e
       | .ok names => .ok (names.toFinset, true)) := by
  have hmem : ci ∉ NON_CHROMIUM_BUILDERS := by simpa using h1
  simp [GetMirroredBuildersForCiBuilder, hmem, h2, h3, h4, h5]

theorem gmb_unresolved_shape {loads : String → Except String JsonValue}
    {bbQuery : String → Except String String} {ci : String} {s : Finset String}
    (h : GetMirroredBuildersForCiBuilder loads bbQuery ci = .ok (s, false)) :
    s = {ci} := by
  unfold GetMirroredBuildersForCiBuilder at h
  repeat' split at h
  all_goals simp_all

theorem extractMirrorNames_mk (ms : List JsonValue) :
    extractMirrorNames (mkBBRecord ms) = mapE extractMirror ms := rfl

theorem foldStep_spec (loads : String → Except String JsonValue)
    (bbQuery : String → Except String String) (cis : List String)
    (a b : Finset String)
    (hok : ∀ c ∈ cis, ∃ r, GetMirroredBuildersForCiBuilder loads bbQuery c = .ok r) :
    (cis.map
        (fun c => (GetMirroredBuildersForCiBuilder loads bbQuery c).toOption.getD (∅, true))).foldl
        (fun acc r => if r.2 then (acc.1 ∪ r.1, acc.2) else (acc.1, acc.2 ∪ r.1)) (a, b) =
      (a ∪ mergedTryNames loads bbQuery cis, b ∪ unresolvedNames loads bbQuery cis) := by
  induction cis generalizing a b with
  | nil => simp [mergedTryNames, unresolvedNames]
  | cons c rest ih =>
    obtain ⟨⟨s, fm⟩, hc⟩ := hok c (List.mem_cons_self c rest)
    have hrest : ∀ x ∈ rest, ∃ r, GetMirroredBuildersForCiBuilder loads bbQuery x = .ok r :=
      fun x hx => hok x (List.mem_cons_of_mem c hx)
    have hg : (GetMirroredBuildersForCiBuilder loads bbQuery c).toOption.getD (∅, true) = (s, fm) := by
      rw [hc]; rfl
    have hmerge : mergedTryNames loads bbQuery (c :: rest) =
        tryContribution loads bbQuery c ∪ mergedTryNames loads bbQuery rest := by
      simp [mergedTryNames, Finset.biUnion_insert]
    simp only [List.map_cons, List.foldl_cons, hg]
    cases fm with
    | true =>
      have htc : tryContribution loads bbQuery c = s := by
        simp [tryContribution, hc]
      have hfil : unresolvedFilter loads bbQuery c = false := by
        simp [unresolvedFilter, hc]
      have hunres : unresolvedNames loads bbQuery (c :: rest) =
          unresolvedNames loads bbQuery rest := by
        simp [unresolvedNames, List.filter_cons, hfil]
      simp only [if_true]
      rw [ih (a ∪ s) b hrest, hmerge, htc, hunres, Finset.union_assoc]
    | false =>
      have hs : s = {c} := gmb_unresolved_shape hc
      have htc : tryContribution loads bbQuery c = ∅ := by
        simp [tryContribution, hc]
      have hfil : unresolvedFilter loads bbQuery c = true := by
        simp [unresolvedFilter, hc]
      have hunres : unresolvedNames loads bbQuery (c :: rest) =
          insert c (unresolvedNames loads bbQuery rest) := by
        simp [unresolvedNames, List.filter_cons, hfil]
      simp only [Bool.false_eq_true, if_false]
      rw [ih a (b ∪ s) hrest, hmerge, htc, hunres, Finset.empty_union, hs,
        Finset.insert_eq, Finset.union_assoc]

theorem getTryBuilders_eq (loads : String → Except String JsonValue)
    (bbQuery : String → Except String String) (cis : List String)
    (hok : ∀ c ∈ cis, ∃ r, GetMirroredBuildersForCiBuilder loads bbQuery c = .ok r) :
    GetTryBuilders loads bbQuery cis =
      if unresolvedNames loads bbQuery cis = ∅ then
        .ok (mergedTryNames loads bbQuery cis)
      else .error (.noBuildbucketOutput (unresolvedNames loads bbQuery cis)) := by
  have hmap : mapE (GetMirroredBuildersForCiBuilder loads bbQuery) cis =
      .ok (cis.map
        (fun c => (GetMirroredBuildersForCiBuilder loads bbQuery c).toOption.getD (∅, true))) := by
    refine mapE_ok_of_forall (fun c hc => ?_)
    obtain ⟨r, hr⟩ := hok c hc
    rw [hr]; rfl
  unfold GetTryBuilders
  rw [hmap]
  simp only []
  rw [foldStep_spec loads bbQuery cis ∅ ∅ hok]
  simp

theorem processEntry_ok_mem {suite : String} {acc acc2 : Finset String}
    {kv : String × JsonValue} {b : String}
    (h : processEntry suite acc kv = .ok acc2) :
    b ∈ acc2 ↔ (b ∈ acc ∨ EntryContributes suite b kv) := by
  unfold processEntry at h
  by_cases hfil : (pySub "Builder" kv.1 || pySub "AAAA" kv.1) = true
  · rw [if_pos hfil] at h
    have hacc : acc = acc2 := by injection h
    subst hacc
    constructor
    · exact Or.inl
    · rintro (hb | ⟨hk, hB, hA, _⟩)
      · exact hb
      · rw [hk, hB, hA] at hfil
        simp at hfil
  · rw [if_neg hfil] at h
    simp only [Bool.or_eq_true, not_or, Bool.not_eq_true] at hfil
    obtain ⟨hB, hA⟩ := hfil
    split at h
    · simp at h
    rename_i scripts hjget
    split at h
    · simp at h
    rename_i ts hiter
    split at h
    · simp at h
    rename_i bres hsit
    have hacc : (if bres then insert kv.1 acc else acc) = acc2 := by injection h
    cases bres with
    | true =>
      rw [if_pos rfl] at hacc
      subst hacc
      rw [Finset.mem_insert]
      constructor
      · rintro (rfl | hb)
        · exact Or.inr ⟨rfl, by rwa [] at hB, by rwa [] at hA,
            scripts, ts, hjget, hiter, hsit⟩
        · exact Or.inl hb
      · rintro (hb | ⟨hk, _, _, _⟩)
        · exact Or.inr hb
        · exact Or.inl hk.symm
    | false =>
      simp only [Bool.false_eq_true, if_false] at hacc
      subst hacc
      constructor
      · exact Or.inl
      · rintro (hb | ⟨hk, _, _, scripts2, ts2, hj2, hi2, hs2⟩)
        · exact hb
        · have hsc : scripts2 = scripts := by
            rw [hjget] at hj2; injection hj2 with h2; exact h2.symm
          subst hsc
          have hts : ts2 = ts := by
            rw [hiter] at hi2; injection hi2 with h2; exact h2.symm
          subst hts
          rw [hsit] at hs2
          injection hs2 with h2
          cases h2

theorem foldE_entries_mem {suite b : String} {entries : List (String × JsonValue)}
    {acc S : Finset String}
    (h : foldE (processEntry suite) acc entries = .ok S) :
    b ∈ S ↔ b ∈ acc ∨ ∃ kv ∈ entries, EntryContributes suite b kv := by
  induction entries generalizing acc with
  | nil =>
    have hacc : acc = S := by injection h
    subst hacc
    simp
  | cons kv rest ih =>
    rw [foldE] at h
    split at h
    · rename_i acc2 hpe
      rw [ih h, processEntry_ok_mem hpe, List.exists_mem_cons_iff]
      tauto
    · simp at h

theorem processFile_ok_mem {loads : String → Except String JsonValue}
    {suite b : String} {f : String × String} {acc S : Finset String}
    (h : processFile loads suite acc f = .ok S) :
    b ∈ S ↔ b ∈ acc ∨ FileContributes loads suite b f := by
  unfold processFile at h
  rcases hend : pyEndsWith f.1 ".json" with _ | _
  · rw [hend] at h
    simp only [Bool.not_false, if_true] at h
    have hacc : acc = S := by injection h
    subst hacc
    constructor
    · exact Or.inl
    · rintro (hb | ⟨hend2, _⟩)
      · exact hb
      · rw [hend] at hend2; cases hend2
  · rw [hend] at h
    simp only [Bool.not_true, Bool.false_eq_true, if_false] at h
    split at h
    · simp at h
    rename_i j hload
    split at h
    · simp at h
    rename_i hk hkey
    rcases hkb : hk with _ | _
    · subst hkb
      simp only [Bool.not_false, if_true] at h
      have hacc : acc = S := by injection h
      subst hacc
      constructor
      · exact Or.inl
      · rintro (hb | ⟨_, j2, hload2, hkey2, _⟩)
        · exact hb
        · have hj : j2 = j := by
            rw [hload] at hload2
            exact (Except.ok.inj hload2).symm
          subst hj
          rw [hkey] at hkey2
          exact Bool.noConfusion (Except.ok.inj hkey2)
    · subst hkb
      simp only [Bool.not_true, Bool.false_eq_true, if_false] at h
      split at h
      · simp at h
      rename_i entries hitems
      rw [foldE_entries_mem h]
      constructor
      · rintro (hb | ⟨kv, hkv, hec⟩)
        · exact Or.inl hb
        · exact Or.inr ⟨hend, j, hload, hkey, entries, hitems, kv, hkv, hec⟩
      · rintro (hb | ⟨_, j2, hload2, hkey2, entries2, hitems2, kv, hkv, hec⟩)
        · exact Or.inl hb
        · have hj : j2 = j := by
            rw [hload] at hload2
            exact (Except.ok.inj hload2).symm
          subst hj
          have he : entries2 = entries := by
            rw [hitems] at hitems2
            exact (Except.ok.inj hitems2).symm
          subst he
          exact Or.inr ⟨kv, hkv, hec⟩

theorem foldE_files_mem {loads : String → Except String JsonValue}
    {suite b : String} {files : List (String × String)} {acc S : Finset String}
    (h : foldE (processFile loads suite) acc files = .ok S) :
    b ∈ S ↔ b ∈ acc ∨ ∃ f ∈ files, FileContributes loads suite b f := by
  induction files generalizing acc with
  | nil =>
    have hacc : acc = S := by injection h
    subst hacc
    simp
  | cons f rest ih =>
    rw [foldE] at h
    split at h
    · rename_i acc2 hpf
      rw [ih h, processFile_ok_mem hpf, List.exists_mem_cons_iff]
      exact or_assoc
    · exact Except.noConfusion h

theorem mem_getCiBuilders {loads : String → Except String JsonValue}
    {suite b : String} {files : List (String × String)} {S : Finset String}
    (h : GetCiBuilders loads suite files = .ok S) :
    b ∈ S ↔ ∃ f ∈ files, FileContributes loads suite b f := by
  rw [foldE_files_mem h]
  simp

theorem extract_of_lacks {j : JsonValue} (h : lacksMirrorInfo j = true) :
    extractMirrorNames j = .ok [] := by
  unfold lacksMirrorInfo at h
  split at h
  all_goals try exact Bool.noConfusion h
  rename_i kvs
  split at h
  all_goals try exact Bool.noConfusion h
  · rename_i hout
    simp [extractMirrorNames, jget, hout, pyIter, mapE]
  · rename_i kvs2 hout
    split at h
    all_goals try exact Bool.noConfusion h
    · rename_i hprops
      simp [extractMirrorNames, jget, hout, hprops, pyIter, mapE]
    · rename_i kvs3 hprops
      split at h
      all_goals try exact Bool.noConfusion h
      · rename_i hmb
        simp [extractMirrorNames, jget, hout, hprops, hmb, pyIter, mapE]
      · rename_i hmb
        simp [extractMirrorNames, jget, hout, hprops, hmb, pyIter, mapE]

theorem mapE_extract_pairs {ps : List (String × String)}
    (hc : ∀ p ∈ ps, ':' ∉ p.1.data ∧ ':' ∉ p.2.data) :
    mapE extractMirror (ps.map (fun p => JsonValue.str (p.1 ++ ":" ++ p.2))) =
      .ok (ps.map Prod.snd) := by
  induction ps with
  | nil => rfl
  | cons p rest ih =>
    obtain ⟨h1, h2⟩ := hc p (List.mem_cons_self p rest)
    have hrest := ih (fun x hx => hc x (List.mem_cons_of_mem p hx))
    simp [mapE, extractMirror_sep h1 h2, hrest]

/-! ### Claim theorems -/

/-- C4: every CI builder present in the static override table resolves to
exactly its overridden try builder, is marked resolved, and the live
query is never consulted: the result is the same for every `loads` and
every `bbQuery`. -/
theorem c4_static_override_precedence (loads : String → Except String JsonValue)
    (bbQuery : String → Except String String) (ci t : String)
    (h : dictFind FAKE_CI_BUILDERS ci = some t) :
    GetMirroredBuildersForCiBuilder loads bbQuery ci = .ok ({t}, true) :=
  gmb_fake h

/-- C4 witness: the overridden CI builder `ANGLE GPU Android Release
(Nexus 5X)` resolves to its try builder even under a raising query and a
failing parser. -/
theorem c4_static_override_precedence_witness :
    GetMirroredBuildersForCiBuilder loadsFailing queryRaising
      "ANGLE GPU Android Release (Nexus 5X)" =
      .ok ({"android_angle_rel_ng"}, true) :=
  c4_static_override_precedence loadsFailing queryRaising _ _ (by decide)

/-- C8: a live query whose parsed response lacks the `output`,
`properties` or `mirrored_builders` key (or carries an empty mirror
list) resolves the builder with zero contributed try builders and
`found_mirror = True`; the builder is not recorded as a failure. -/
theorem c8_missing_keys_resolved (loads : String → Except String JsonValue)
    (bbQuery : String → Except String String) (ci out : String) (j : JsonValue)
    (h1 : NON_CHROMIUM_BUILDERS.contains ci = false)
    (h2 : dictFind FAKE_CI_BUILDERS ci = none)
    (h3 : bbQuery ci = .ok out) (h4 : out ≠ "") (h5 : loads out = .ok j)
    (h6 : lacksMirrorInfo j = true) :
    GetMirroredBuildersForCiBuilder loads bbQuery ci = .ok (∅, true) := by
  rw [gmb_live h1 h2 h3 h4 h5, extract_of_lacks h6]
  rfl

/-- C8 witness: a builder whose Buildbucket record has no `output` key is
resolved with an empty contribution. -/
theorem c8_missing_keys_resolved_witness :
    GetMirroredBuildersForCiBuilder loadsLacking querySome "some-builder" =
      .ok (∅, true) :=
  c8_missing_keys_resolved loadsLacking querySome "some-builder" "bb" _
    (by decide) (by decide) rfl (by decide) rfl (by decide)

/-- C7: every `mirrored_builders` entry of the form `<group>:<name>`
(with colon-free group and name) contributes exactly the name part, with
the group and the colon stripped. -/
theorem c7_mirror_name_extraction (loads : String → Except String JsonValue)
    (bbQuery : String → Except String String) (ci out : String)
    (ps : List (String × String))
    (h1 : NON_CHROMIUM_BUILDERS.contains ci = false)
    (h2 : dictFind FAKE_CI_BUILDERS ci = none)
    (h3 : bbQuery ci = .ok out) (h4 : out ≠ "")
    (h5 : loads out =
      .ok (mkBBRecord (ps.map (fun p => JsonValue.str (p.1 ++ ":" ++ p.2)))))
    (hc : ∀ p ∈ ps, ':' ∉ p.1.data ∧ ':' ∉ p.2.data) :
    GetMirroredBuildersForCiBuilder loads bbQuery ci =
      .ok ((ps.map Prod.snd).toFinset, true) := by
  rw [gmb_live h1 h2 h3 h4 h5, extractMirrorNames_mk, mapE_extract_pairs hc]

/-- C7 witness: `tryserver.chromium.linux:my-try-builder` contributes
exactly `my-try-builder`. -/
theorem c7_mirror_name_extraction_witness :
    GetMirroredBuildersForCiBuilder loadsMirrors querySome "some-builder" =
      .ok ((([("tryserver.chromium.linux", "my-try-builder")].map Prod.snd)).toFinset,
        true) :=
  c7_mirror_name_extraction loadsMirrors querySome "some-builder" "bb"
    [("tryserver.chromium.linux", "my-try-builder")]
    (by decide) (by decide) rfl (by decide) rfl (by decide)

/-- C9: a `mirrored_builders` entry whose colon count is not exactly one
fails the two-part split assertion, and the per-builder resolution raises
instead of skipping the entry or recording the builder as unresolved. -/
theorem c9_split_assertion (loads : String → Except String JsonValue)
    (bbQuery : String → Except String String) (ci out m : String)
    (ms : List JsonValue)
    (h1 : NON_CHROMIUM_BUILDERS.contains ci = false)
    (h2 : dictFind FAKE_CI_BUILDERS ci = none)
    (h3 : bbQuery ci = .ok out) (h4 : out ≠ "")
    (h5 : loads out = .ok (mkBBRecord ms))
    (hm : JsonValue.str m ∈ ms) (hc : m.data.count ':' ≠ 1) :
    extractMirror (.str m) = .error "AssertionError" ∧
    ∃ e, GetMirroredBuildersForCiBuilder loads bbQuery ci = .error e := by
  have hext := extractMirror_count_ne_one hc
  refine ⟨hext, ?_⟩
  obtain ⟨e2, he2⟩ := mapE_error_of_mem hm hext
  refine ⟨e2, ?_⟩
  rw [gmb_live h1 h2 h3 h4 h5, extractMirrorNames_mk, he2]

/-- C9 witness: the colon-free entry `nocolon` trips the assertion and
the resolution raises. -/
theorem c9_split_assertion_witness :
    extractMirror (.str "nocolon") = .error "AssertionError" ∧
    ∃ e, GetMirroredBuildersForCiBuilder loadsNoColon querySome "some-builder" =
      .error e :=
  c9_split_assertion loadsNoColon querySome "some-builder" "bb" "nocolon"
    [.str "nocolon"] (by decide) (by decide) rfl (by decide) rfl
    (List.mem_cons_self _ _) (by decide)

/-- C3 counterexample: the claim that every form of query failure
(exception, empty output, malformed response) records the CI builder in
the failure set is false — for the builder `some-builder` under a raising
query, resolution propagates the exception instead of returning
`({some-builder}, False)`. -/
theorem c3_counterexample :
    ¬ (∀ (loads : String → Except String JsonValue)
         (bbQuery : String → Except String String) (ci : String),
        NON_CHROMIUM_BUILDERS.contains ci = false →
        dictFind FAKE_CI_BUILDERS ci = none →
        ((∃ e, bbQuery ci = .error e) ∨ bbQuery ci = .ok "" ∨
         (∃ out e, bbQuery ci = .ok out ∧ out ≠ "" ∧ loads out = .error e)) →
        GetMirroredBuildersForCiBuilder loads bbQuery ci = .ok ({ci}, false)) := by
  intro hclaim
  have h := hclaim loadsFailing queryRaising "some-builder" (by decide) (by decide)
    (Or.inl ⟨"CalledProcessError", rfl⟩)
  have h2 : GetMirroredBuildersForCiBuilder loadsFailing queryRaising "some-builder" =
      .error "CalledProcessError" := by decide
  rw [h2] at h
  exact Except.noConfusion h

/-- C3 (amended): only empty query output records the original CI builder
name in the failure set; an exception raised during the query, and a
non-empty response whose parse fails, propagate as immediate errors
instead of being recorded. -/
theorem c3_only_empty_output_recorded (loads : String → Except String JsonValue)
    (bbQuery : String → Except String String) (ci : String)
    (h1 : NON_CHROMIUM_BUILDERS.contains ci = false)
    (h2 : dictFind FAKE_CI_BUILDERS ci = none) :
    (bbQuery ci = .ok "" →
      GetMirroredBuildersForCiBuilder loads bbQuery ci = .ok ({ci}, false)) ∧
    (∀ e, bbQuery ci = .error e →
      GetMirroredBuildersForCiBuilder loads bbQuery ci = .error e) ∧
    (∀ out e, bbQuery ci = .ok out → out ≠ "" → loads out = .error e →
      GetMirroredBuildersForCiBuilder loads bbQuery ci = .error e) :=
  ⟨fun h3 => gmb_empty_output h1 h2 h3,
   fun _ h3 => gmb_query_error h1 h2 h3,
   fun _ _ h3 h4 h5 => gmb_loads_error h1 h2 h3 h4 h5⟩

/-- C3 witness: the three failure modes at a concrete builder — empty
output is recorded, a raising query and a failing parse propagate. -/
theorem c3_only_empty_output_recorded_witness :
    GetMirroredBuildersForCiBuilder loadsFailing queryEmptyOutput "some-builder" =
      .ok ({"some-builder"}, false) ∧
    GetMirroredBuildersForCiBuilder loadsFailing queryRaising "some-builder" =
      .error "CalledProcessError" ∧
    GetMirroredBuildersForCiBuilder loadsFailing queryGarbage "some-builder" =
      .error "ValueError" :=
  ⟨(c3_only_empty_output_recorded loadsFailing queryEmptyOutput "some-builder"
      (by decide) (by decide)).1 rfl,
   (c3_only_empty_output_recorded loadsFailing queryRaising "some-builder"
      (by decide) (by decide)).2.1 "CalledProcessError" rfl,
   (c3_only_empty_output_recorded loadsFailing queryGarbage "some-builder"
      (by decide) (by decide)).2.2 "garbage" "ValueError" rfl (by decide) rfl⟩

/-- C10: a successful `GetCiBuilders` run never returns a builder whose
name contains the substring "Builder" or the substring "AAAA", even when
its test records match the requested suite. -/
theorem c10_name_filter (loads : String → Except String JsonValue)
    (suite : String) (files : List (String × String)) (S : Finset String)
    (b : String) (h : GetCiBuilders loads suite files = .ok S)
    (hb : pySub "Builder" b = true ∨ pySub "AAAA" b = true) :
    b ∉ S := by
  intro hmem
  rcases (mem_getCiBuilders h).mp hmem with
    ⟨f, _, _, j, _, _, entries, _, kv, _, hec⟩
  rcases hec with ⟨_, hB, hA, _⟩
  rcases hb with hb | hb
  · rw [hB] at hb
    exact Bool.noConfusion hb
  · rw [hA] at hb
    exact Bool.noConfusion hb

/-- C10 witness: the sample directory yields exactly `{GPU Linux}`, and
the matching builder `GPU Win Builder` is excluded by its name. -/
theorem c10_name_filter_witness :
    "GPU Win Builder" ∉ ({"GPU Linux"} : Finset String) :=
  c10_name_filter loadsSample "my_suite" sampleFiles {"GPU Linux"}
    "GPU Win Builder" (by decide) (Or.inl (by decide))

theorem pyInString_iterable {s : String} {v : JsonValue} (h : iterableB v = true) :
    ∃ bv, pyInString s v = .ok bv := by
  rcases v with _ | bv | nv | sv | xs | kvs
  · exact Bool.noConfusion h
  · exact Bool.noConfusion h
  · exact Bool.noConfusion h
  · exact ⟨_, rfl⟩
  · exact ⟨_, rfl⟩
  · exact ⟨_, rfl⟩

theorem suiteInTests_wf_ok {suite : String} {ts : List JsonValue}
    (h : ∀ t ∈ ts, wfTest t = true) : ∃ b, SuiteInTests suite ts = .ok b := by
  induction ts with
  | nil => exact ⟨false, rfl⟩
  | cons t rest ih =>
    have ht := h t (List.mem_cons_self t rest)
    obtain ⟨brest, hrest⟩ := ih (fun x hx => h x (List.mem_cons_of_mem t hx))
    unfold wfTest at ht
    split at ht
    case _ kvs =>
      rw [SuiteInTests]
      simp only [jget]
      by_cases hmatch :
          (match (List.lookup "isolate_name" kvs).getD JsonValue.null with
           | .str s => GPU_TELEMETRY_ISOLATES.contains s
           | _ => false) = true
      · rw [if_pos hmatch]
        obtain ⟨bv, hbv⟩ := @pyInString_iterable suite _ ht
        rw [hbv]
        cases bv with
        | true => exact ⟨true, rfl⟩
        | false => exact ⟨brest, hrest⟩
      · rw [if_neg hmatch]
        exact ⟨brest, hrest⟩
    case _ => exact Bool.noConfusion ht

theorem processEntry_wf_ok {suite : String} {acc : Finset String}
    {kv : String × JsonValue}
    (h : (pySub "Builder" kv.1 || pySub "AAAA" kv.1 || wfEntryVal kv.2) = true) :
    ∃ acc2, processEntry suite acc kv = .ok acc2 := by
  by_cases hfil : (pySub "Builder" kv.1 || pySub "AAAA" kv.1) = true
  · exact ⟨acc, by simp [processEntry, hfil]⟩
  · have hwf : wfEntryVal kv.2 = true := by
      simp only [Bool.or_eq_true] at h hfil
      rcases h with h | h
      · exact absurd h hfil
      · exact h
    unfold processEntry
    rw [if_neg hfil]
    unfold wfEntryVal at hwf
    split at hwf
    case _ kvs hkv =>
      rw [hkv]
      simp only [jget]
      split at hwf
      case _ x ts hts =>
        rw [hts]
        simp only [pyIter]
        obtain ⟨bres, hbres⟩ :=
          @suiteInTests_wf_ok suite ts (List.all_eq_true.mp hwf)
        rw [hbres]
        exact ⟨_, rfl⟩
      case _ => exact Bool.noConfusion hwf
    case _ => exact Bool.noConfusion hwf

theorem foldE_all_ok {f : α → β → Except ε α} {l : List β}
    (h : ∀ acc, ∀ x ∈ l, ∃ acc2, f acc x = .ok acc2) :
    ∀ acc, ∃ S, foldE f acc l = .ok S := by
  induction l with
  | nil => exact fun acc => ⟨acc, rfl⟩
  | cons x xs ih =>
    intro acc
    obtain ⟨acc2, hacc2⟩ := h acc x (List.mem_cons_self x xs)
    obtain ⟨S, hS⟩ := ih (fun a y hy => h a y (List.mem_cons_of_mem x hy)) acc2
    refine ⟨S, ?_⟩
    rw [foldE, hacc2]
    exact hS

theorem processFile_wf_ok {loads : String → Except String JsonValue}
    {suite : String} {f : String × String}
    (h : pyEndsWith f.1 ".json" = false ∨
      ∃ j, loads f.2 = .ok j ∧ wfFileJson j = true) :
    ∀ acc, ∃ S, processFile loads suite acc f = .ok S := by
  intro acc
  rcases h with hend | ⟨j, hload, hwf⟩
  · exact ⟨acc, by simp [processFile, hend]⟩
  · rcases hend : pyEndsWith f.1 ".json" with _ | _
    · exact ⟨acc, by simp [processFile, hend]⟩
    · unfold processFile
      rw [hend]
      simp only [Bool.not_true, Bool.false_eq_true, if_false]
      rw [hload]
      unfold wfFileJson at hwf
      split at hwf
      case _ kvs =>
        simp only [pyInString, pyItems]
        rcases hkey : kvs.any (fun kv => kv.1 == AUTOGENERATED_JSON_KEY) with _ | _
        · exact ⟨acc, by simp⟩
        · simp only [Bool.not_true, Bool.false_eq_true, if_false]
          exact foldE_all_ok
            (fun a kv hkv => processEntry_wf_ok (List.all_eq_true.mp hwf kv hkv)) acc
      case _ => exact Bool.noConfusion hwf

theorem getCiBuilders_wf_ok {loads : String → Except String JsonValue}
    {suite : String} {files : List (String × String)}
    (hwf : ∀ f ∈ files, pyEndsWith f.1 ".json" = false ∨
      ∃ j, loads f.2 = .ok j ∧ wfFileJson j = true) :
    ∃ S, GetCiBuilders loads suite files = .ok S :=
  foldE_all_ok (fun acc f hf => processFile_wf_ok (hwf f hf) acc) ∅

/-- C5 counterexample: the sample directory yields exactly `{GPU Linux}`,
yet `GPU Win Builder` satisfies the spec's membership condition (a
telemetry-isolate record carrying the suite) — so the result is not
"exactly the set of builders with a matching record": the code also
applies a Builder/AAAA name filter. -/
theorem c5_counterexample :
    ¬ (∀ (loads : String → Except String JsonValue) (suite : String)
         (files : List (String × String)) (S : Finset String) (b : String),
        GetCiBuilders loads suite files = .ok S →
        ((∃ f ∈ files, SpecFileContributes loads suite b f) → b ∈ S)) := by
  intro hclaim
  have hspec : SpecFileContributes loadsSample "my_suite" "GPU Win Builder"
      ("a.json", "good") :=
    ⟨rfl, sampleSuiteFile, rfl, rfl,
     [sampleSentinelEntry, sampleLinuxEntry, sampleWinBuilderEntry, sampleOtherEntry],
     rfl, sampleWinBuilderEntry,
     List.Mem.tail _ (List.Mem.tail _ (List.Mem.head _)),
     rfl, .arr [sampleMatchingRecord], [sampleMatchingRecord], rfl, rfl, rfl⟩
  have h := hclaim loadsSample "my_suite" sampleFiles {"GPU Linux"} "GPU Win Builder"
    (by decide) ⟨("a.json", "good"), List.Mem.head _, hspec⟩
  exact absurd h (by decide)

/-- C5 (amended): for every suite name and every collection of
well-formed suite files, the listing succeeds — no matching builder
means an empty result, not an error — and returns exactly the set of
builder names that survive the Builder/AAAA name filter and have at
least one test record on a known telemetry GPU isolate whose argument
list contains the suite. -/
theorem c5_relevant_builders (loads : String → Except String JsonValue)
    (suite : String) (files : List (String × String))
    (hwf : ∀ f ∈ files, pyEndsWith f.1 ".json" = false ∨
      ∃ j, loads f.2 = .ok j ∧ wfFileJson j = true) :
    ∃ S, GetCiBuilders loads suite files = .ok S ∧
      ∀ b, b ∈ S ↔ ∃ f ∈ files, FileContributes loads suite b f := by
  obtain ⟨S, hS⟩ := getCiBuilders_wf_ok hwf
  exact ⟨S, hS, fun b => mem_getCiBuilders hS⟩

/-- C5 witness: the sample directory is well formed, so the listing
succeeds and its members are exactly the contributing builders. -/
theorem c5_relevant_builders_witness :
    ∃ S, GetCiBuilders loadsSample "my_suite" sampleFiles = .ok S ∧
      ∀ b, b ∈ S ↔ ∃ f ∈ sampleFiles, FileContributes loadsSample "my_suite" b f :=
  c5_relevant_builders loadsSample "my_suite" sampleFiles
    (by
      intro f hf
      obtain rfl : f = ("a.json", "good") := by
        have h2 : f ∈ [("a.json", "good")] := hf
        exact List.mem_singleton.mp h2
      exact Or.inr ⟨sampleSuiteFile, rfl, by decide⟩)

theorem processFile_skip_nonjson {loads : String → Except String JsonValue}
    {suite : String} {f : String × String}
    (h : pyEndsWith f.1 ".json" = false) :
    ∀ acc, processFile loads suite acc f = .ok acc := by
  intro acc
  simp [processFile, h]

theorem processFile_skip_nokey {loads : String → Except String JsonValue}
    {suite : String} {f : String × String} {j : JsonValue}
    (hj : loads f.2 = .ok j)
    (hk : pyInString AUTOGENERATED_JSON_KEY j = .ok false) :
    ∀ acc, processFile loads suite acc f = .ok acc := by
  intro acc
  rcases hend : pyEndsWith f.1 ".json" with _ | _
  · simp [processFile, hend]
  · unfold processFile
    rw [hend]
    simp only [Bool.not_true, Bool.false_eq_true, if_false]
    simp [hj, hk]

theorem processFile_error_of_malformed {loads : String → Except String JsonValue}
    {suite : String} {f : String × String} {e : String}
    (hend : pyEndsWith f.1 ".json" = true) (hload : loads f.2 = .error e) :
    ∀ acc, processFile loads suite acc f = .error e := by
  intro acc
  unfold processFile
  rw [hend]
  simp only [Bool.not_true, Bool.false_eq_true, if_false]
  rw [hload]

theorem foldE_skip_middle {f : α → β → Except ε α} {x : β}
    (hskip : ∀ acc, f acc x = .ok acc) (a : α) (pre post : List β) :
    foldE f a (pre ++ x :: post) = foldE f a (pre ++ post) := by
  rw [foldE_append, foldE_append]
  rcases h : foldE f a pre with e | acc
  · rfl
  · show foldE f acc (x :: post) = foldE f acc post
    rw [foldE, hskip acc]

/-- C6 counterexample: a malformed .json file is not skipped — with the
directory `[bad.json, a.json]` the run aborts with the parse error
instead of returning the result of the remaining file. -/
theorem c6_counterexample :
    ¬ (∀ (loads : String → Except String JsonValue) (suite : String)
         (pre post : List (String × String)) (f : String × String),
        pyEndsWith f.1 ".json" = true → (∃ e, loads f.2 = .error e) →
        GetCiBuilders loads suite (pre ++ f :: post) =
          GetCiBuilders loads suite (pre ++ post)) := by
  intro hclaim
  have h := hclaim loadsSample "my_suite" [] [("a.json", "good")] ("bad.json", "bad")
    (by decide) ⟨"ValueError", rfl⟩
  have h1 : GetCiBuilders loadsSample "my_suite"
      ([] ++ ("bad.json", "bad") :: [("a.json", "good")]) = .error "ValueError" := by
    decide
  have h2 : GetCiBuilders loadsSample "my_suite" ([] ++ [("a.json", "good")]) =
      .ok {"GPU Linux"} := by decide
  rw [h1, h2] at h
  exact Except.noConfusion h

/-- C6 (amended): the loading step skips files whose name does not end in
.json and files whose parsed contents lack the autogenerated sentinel
key, continuing with the rest; but a .json file whose contents fail to
parse aborts the whole run with that parse error. -/
theorem c6_skip_and_abort (loads : String → Except String JsonValue)
    (suite : String) (pre post : List (String × String)) (f : String × String) :
    (pyEndsWith f.1 ".json" = false →
      GetCiBuilders loads suite (pre ++ f :: post) =
        GetCiBuilders loads suite (pre ++ post)) ∧
    (∀ j, loads f.2 = .ok j → pyInString AUTOGENERATED_JSON_KEY j = .ok false →
      GetCiBuilders loads suite (pre ++ f :: post) =
        GetCiBuilders loads suite (pre ++ post)) ∧
    (∀ e acc, pyEndsWith f.1 ".json" = true → loads f.2 = .error e →
      foldE (processFile loads suite) ∅ pre = .ok acc →
      GetCiBuilders loads suite (pre ++ f :: post) = .error e) := by
  refine ⟨?_, ?_, ?_⟩
  · intro hend
    exact foldE_skip_middle (processFile_skip_nonjson hend) ∅ pre post
  · intro j hj hk
    exact foldE_skip_middle (processFile_skip_nokey hj hk) ∅ pre post
  · intro e acc hend hload hpre
    unfold GetCiBuilders
    rw [foldE_append, hpre]
    show foldE (processFile loads suite) acc (f :: post) = .error e
    rw [foldE, processFile_error_of_malformed hend hload acc]

/-- C6 witness: skipping a non-json file and a sentinel-free file, and
aborting on a malformed file, at concrete directories. -/
theorem c6_skip_and_abort_witness :
    (GetCiBuilders loadsSample "my_suite"
        ([] ++ ("notes.txt", "bad") :: [("a.json", "good")]) =
      GetCiBuilders loadsSample "my_suite" ([] ++ [("a.json", "good")])) ∧
    (GetCiBuilders loadsSample "my_suite"
        ([] ++ ("bad.json", "bad") :: [("a.json", "good")]) = .error "ValueError") :=
  ⟨(c6_skip_and_abort loadsSample "my_suite" [] [("a.json", "good")]
      ("notes.txt", "bad")).1 (by decide),
   (c6_skip_and_abort loadsSample "my_suite" [] [("a.json", "good")]
      ("bad.json", "bad")).2.2 "ValueError" ∅ (by decide) rfl rfl⟩

/-- C1 counterexample: the non-Chromium builder `Win V8 FYI Release
(NVIDIA)` is processed successfully, contributes no try builder at all
(its resolved set is empty), and is not recorded in the unresolved set —
so "contributes at least one try builder or is recorded as unresolved"
fails. -/
theorem c1_counterexample :
    ¬ (∀ (loads : String → Except String JsonValue)
         (bbQuery : String → Except String String)
         (cis : List String) (ci : String),
        ci ∈ cis →
        (∀ c ∈ cis, ∃ r, GetMirroredBuildersForCiBuilder loads bbQuery c = .ok r) →
        ((∃ s, GetMirroredBuildersForCiBuilder loads bbQuery ci = .ok (s, true) ∧
            s ≠ ∅) ∧
          ci ∉ unresolvedNames loads bbQuery cis) ∨
        (¬ (∃ s, GetMirroredBuildersForCiBuilder loads bbQuery ci = .ok (s, true) ∧
            s ≠ ∅) ∧
          ci ∈ unresolvedNames loads bbQuery cis)) := by
  intro hclaim
  have h := hclaim loadsFailing queryRaising ["Win V8 FYI Release (NVIDIA)"]
    "Win V8 FYI Release (NVIDIA)" (List.mem_cons_self _ _)
    (fun c hc => by
      rcases List.mem_singleton.mp hc with rfl
      exact ⟨(∅, true), by decide⟩)
  rcases h with ⟨⟨s, hgmb, hne⟩, _⟩ | ⟨_, hmem⟩
  · have h2 : GetMirroredBuildersForCiBuilder loadsFailing queryRaising
        "Win V8 FYI Release (NVIDIA)" = .ok (∅, true) := by decide
    rw [h2] at hgmb
    exact hne (Prod.ext_iff.mp (Except.ok.inj hgmb)).1.symm
  · exact absurd hmem (by decide)

/-- C1 (amended): every input CI builder whose per-builder resolution
completes without an exception ends up in exactly one of the two
outcomes — marked resolved, contributing its whole (possibly empty)
resolved set to the merged try-builder result, or returned unresolved as
exactly its own name, recorded in the unresolved set. -/
theorem c1_partition (loads : String → Except String JsonValue)
    (bbQuery : String → Except String String) (cis : List String) (ci : String)
    (hmem : ci ∈ cis)
    (hok : ∀ c ∈ cis, ∃ r, GetMirroredBuildersForCiBuilder loads bbQuery c = .ok r) :
    ((∃ s, GetMirroredBuildersForCiBuilder loads bbQuery ci = .ok (s, true) ∧
        s ⊆ mergedTryNames loads bbQuery cis) ∧
      ci ∉ unresolvedNames loads bbQuery cis) ∨
    (GetMirroredBuildersForCiBuilder loads bbQuery ci = .ok ({ci}, false) ∧
      ci ∈ unresolvedNames loads bbQuery cis) := by
  obtain ⟨⟨s, fm⟩, hc⟩ := hok ci hmem
  cases fm with
  | true =>
    left
    constructor
    · refine ⟨s, hc, ?_⟩
      intro y hy
      refine Finset.mem_biUnion.mpr ⟨ci, List.mem_toFinset.mpr hmem, ?_⟩
      unfold tryContribution
      rw [hc]
      exact hy
    · intro hmem2
      have hfil := (List.mem_filter.mp (List.mem_toFinset.mp hmem2)).2
      unfold unresolvedFilter at hfil
      rw [hc] at hfil
      exact Bool.noConfusion hfil
  | false =>
    right
    have hs := gmb_unresolved_shape hc
    subst hs
    refine ⟨hc, ?_⟩
    refine List.mem_toFinset.mpr (List.mem_filter.mpr ⟨hmem, ?_⟩)
    unfold unresolvedFilter
    rw [hc]

/-- C1 witness: a statically mirrored builder lands in the resolved
outcome with its contribution inside the merged set. -/
theorem c1_partition_witness :
    ((∃ s, GetMirroredBuildersForCiBuilder loadsFailing queryRaising
        "ANGLE GPU Linux Release (NVIDIA)" = .ok (s, true) ∧
        s ⊆ mergedTryNames loadsFailing queryRaising
          ["ANGLE GPU Linux Release (NVIDIA)"]) ∧
      "ANGLE GPU Linux Release (NVIDIA)" ∉ unresolvedNames loadsFailing queryRaising
        ["ANGLE GPU Linux Release (NVIDIA)"]) ∨
    (GetMirroredBuildersForCiBuilder loadsFailing queryRaising
        "ANGLE GPU Linux Release (NVIDIA)" =
        .ok ({"ANGLE GPU Linux Release (NVIDIA)"}, false) ∧
      "ANGLE GPU Linux Release (NVIDIA)" ∈ unresolvedNames loadsFailing queryRaising
        ["ANGLE GPU Linux Release (NVIDIA)"]) :=
  c1_partition loadsFailing queryRaising ["ANGLE GPU Linux Release (NVIDIA)"]
    "ANGLE GPU Linux Release (NVIDIA)" (List.mem_cons_self _ _)
    (fun c hc => by
      rcases List.mem_singleton.mp hc with rfl
      exact ⟨({"linux-angle-rel"}, true), by decide⟩)

/-- C2: when every input builder is processed without an exception, the
operation raises an error exactly when some builder is unresolved; in
that case the single aggregate error carries exactly the set of
unresolved input builder names, and otherwise the merged try-builder set
is returned normally. -/
theorem c2_aggregate_error (loads : String → Except String JsonValue)
    (bbQuery : String → Except String String) (cis : List String)
    (hok : ∀ c ∈ cis, ∃ r, GetMirroredBuildersForCiBuilder loads bbQuery c = .ok r) :
    (unresolvedNames loads bbQuery cis = ∅ →
      GetTryBuilders loads bbQuery cis = .ok (mergedTryNames loads bbQuery cis)) ∧
    (unresolvedNames loads bbQuery cis ≠ ∅ →
      GetTryBuilders loads bbQuery cis =
        .error (.noBuildbucketOutput (unresolvedNames loads bbQuery cis))) := by
  have h := getTryBuilders_eq loads bbQuery cis hok
  constructor
  · intro he
    rw [h, if_pos he]
  · intro he
    rw [h, if_neg he]

/-- C2 witness: one unresolved builder makes the operation raise the
aggregate error naming exactly that builder. -/
theorem c2_aggregate_error_witness :
    GetTryBuilders loadsFailing queryEmptyOutput ["some-builder"] =
      .error (.noBuildbucketOutput
        (unresolvedNames loadsFailing queryEmptyOutput ["some-builder"])) :=
  (c2_aggregate_error loadsFailing queryEmptyOutput ["some-builder"]
    (fun c hc => by
      rcases List.mem_singleton.mp hc with rfl
      exact ⟨({"some-builder"}, false), by decide⟩)).2 (by decide)
